import Mathlib

/-!
Shallow embedding of the Dcard scraper (src/dcard.ts, src/storer.ts,
src/interface.ts).

Network nondeterminism is modelled by environment functions: each
underlying `fetch` call is resolved by consulting the environment at the
position of the call. Observable effects (page requests, relay POSTs,
reply fetches) are collected as an explicit event trace. Logging and the
real-time delays are not observable to any claim and are modelled only by
counting pauses where a claim mentions them.
-/

set_option linter.unusedVariables false

namespace Dcard

/-- Outcome of one underlying `fetch` call: a response with an HTTP status
code, or a transport exception carrying an error message. -/
inductive FetchOutcome where
  | success (status : Nat)
  | failure (err : String)
  deriving DecidableEq

/-- Embedding of `Response.ok`: the status is in the inclusive range
200-299. -/
def statusOk (s : Nat) : Bool := 200 ≤ s && s ≤ 299

/-- Result of `fetchWithRetry`, instrumented with the number of underlying
fetch calls performed and the number of fixed-delay pauses taken (one
before every retry). `result` is `.ok status` when a response is returned
to the caller and `.error e` when the last exception is re-thrown. -/
structure RetryResult where
  result : Except String Nat
  attempts : Nat
  pauses : Nat

/-- Embedding of `fetchWithRetry` (dcard.ts lines 58-81). `net i` is the
outcome of the `i`-th underlying fetch call issued for this request.
A 429 response with retries left pauses and retries; a 429 with no
retries left is returned like any other response. A transport exception
with retries left pauses and retries; with no retries left it is
re-thrown. The recursive calls in the source are `return`ed without
`await`, so a rejection from a deeper call bypasses the enclosing
`catch`; the recursion below is therefore exact. Matching on the retry
counter first is an equivalent rearrangement of the source's two
`retries > 0` tests. -/
def fetchWithRetry (net : Nat → FetchOutcome) : Nat → Nat → RetryResult
  | idx, 0 =>
    match net idx with
    | .success status => { result := .ok status, attempts := 1, pauses := 0 }
    | .failure err => { result := .error err, attempts := 1, pauses := 0 }
  | idx, r + 1 =>
    match net idx with
    | .success status =>
      if status = 429 then
        let sub := fetchWithRetry net (idx + 1) r
        { result := sub.result, attempts := sub.attempts + 1, pauses := sub.pauses + 1 }
      else { result := .ok status, attempts := 1, pauses := 0 }
    | .failure _ =>
      let sub := fetchWithRetry net (idx + 1) r
      { result := sub.result, attempts := sub.attempts + 1, pauses := sub.pauses + 1 }

/-- Record shape of `NewArticleDto` (interface.ts). -/
structure NewArticleDto where
  id : String
  url : String
  title : String
  content : String
  created_at : String
  deriving DecidableEq

/-- Record shape of `NewCommentDto` (interface.ts); `NewReplyDto` extends
it with no extra fields. -/
structure NewCommentDto where
  id : String
  content : String
  author : String
  likes : Int
  created_at : String
  deriving DecidableEq

/-- `NewReplyDto` has exactly the shape of `NewCommentDto`. -/
abbrev NewReplyDto := NewCommentDto

/-- JavaScript truthiness of an optional string: `undefined` and the empty
string are falsy. -/
def truthyStr : Option String → Bool
  | none => false
  | some s => !s.isEmpty

/-- JavaScript truthiness of an optional boolean: `undefined` and `false`
are falsy. -/
def truthyBool : Option Bool → Bool
  | none => false
  | some b => b

/-- JavaScript template-literal interpolation of an optional string:
`undefined` is rendered as the text "undefined". -/
def interp : Option String → String
  | none => "undefined"
  | some s => s

/-- Argument shape of `formatAuthor` (dcard.ts lines 126-133). Optional
fields of the TypeScript type are `Option`s here. -/
structure AuthorData where
  withNickname : Option Bool
  personaNickname : Option String
  personaUid : Option String
  school : String
  department : Option String
  gender : String
  deriving DecidableEq

/-- Embedding of `formatAuthor` (dcard.ts lines 126-144). Condition tests
are JavaScript truthiness; interpolation of an absent optional field
renders "undefined". -/
def formatAuthor (data : AuthorData) : String :=
  if truthyBool data.withNickname && truthyStr data.personaNickname
      && truthyStr data.personaUid then
    interp data.personaNickname ++ " (@" ++ interp data.personaUid ++ ", "
      ++ data.gender ++ ")"
  else if truthyBool data.withNickname then
    "@" ++ data.school ++ " (@" ++ interp data.department ++ ", "
      ++ data.gender ++ ")"
  else
    data.school ++ (if truthyStr data.department then " " ++ interp data.department else "")
      ++ " (" ++ data.gender ++ ")"

/-- State of the rendered page as `scrapeArticleData` reads it: the four
DOM query results, each possibly absent. -/
structure Dom where
  title : Option String
  date : Option String
  content : Option String
  url : Option String
  deriving DecidableEq

/-- Splitting of a character list at every `/`, the semantics of
JavaScript `"…".split("/")`: adjacent separators and separators at either
end yield empty segments, and the result is never the empty list. -/
def splitSlash : List Char → List (List Char)
  | [] => [[]]
  | c :: cs =>
    let rest := splitSlash cs
    if c = '/' then [] :: rest
    else (c :: rest.headD []) :: rest.tail

/-- Embedding of `url.split("/").pop()`: the last `/`-separated segment of
a string (JavaScript `split` never yields an empty array, so `pop` is
total). -/
def lastSeg (u : String) : String := String.mk ((splitSlash u.data).getLastD [])

/-- Embedding of `scrapeArticleData` (dcard.ts lines 91-119): reads title,
timestamp, body, canonical URL, derives the id from the URL's last path
segment, and throws when any of the five is missing or empty (JavaScript
`!x` on an optional string). -/
def scrapeArticleData (dom : Dom) : Except String NewArticleDto :=
  let articleId := dom.url.map lastSeg
  if truthyStr dom.title && truthyStr dom.date && truthyStr dom.content
      && truthyStr dom.url && truthyStr articleId then
    .ok { id := articleId.getD "", url := dom.url.getD "",
          title := dom.title.getD "", content := dom.content.getD "",
          created_at := dom.date.getD "" }
  else
    .error "Failed to scrape article data: missing required data"

/-- Embedding of `Storer.storeArticle` (storer.ts lines 16-40). `backend`
is the outcome of the POST to the backend; a non-ok status or a network
exception is converted into `false`, never rethrown, so the function is
total into `Bool`. The article argument only feeds the URL body and the
logs. -/
def Storer.storeArticle (backend : FetchOutcome) (article : NewArticleDto) : Bool :=
  match backend with
  | .success s => statusOk s
  | .failure _ => false

/-- Embedding of `Storer.storeComment` (storer.ts lines 48-70); identical
control flow to `Storer.storeArticle`. -/
def Storer.storeComment (backend : FetchOutcome) (articleId : String)
    (comment : NewCommentDto) : Bool :=
  match backend with
  | .success s => statusOk s
  | .failure _ => false

/-- Embedding of `Storer.storeReply` (storer.ts lines 79-104); identical
control flow to `Storer.storeArticle`. -/
def Storer.storeReply (backend : FetchOutcome) (articleId : String)
    (commentId : String) (reply : NewReplyDto) : Bool :=
  match backend with
  | .success s => statusOk s
  | .failure _ => false

/-- Policy constant `MAX_COMMENT_PAGES` (dcard.ts line 40). -/
def MAX_COMMENT_PAGES : Nat := 3

/-- Item shape of `DcardCommentResponse.items` (dcard.ts lines 10-23).
The comment interface has no `personaNickname` or `personaUid` field, so
those are `undefined` when the item is passed to `formatAuthor`. -/
structure CommentItem where
  id : String
  content : String
  withNickname : Option Bool
  school : String
  department : Option String
  gender : String
  likeCount : Int
  createdAt : String
  subCommentCount : Nat
  deriving DecidableEq

/-- View of a comment item as a `formatAuthor` argument: the persona
fields are structurally absent. -/
def CommentItem.toAuthorData (item : CommentItem) : AuthorData :=
  { withNickname := item.withNickname, personaNickname := none,
    personaUid := none, school := item.school,
    department := item.department, gender := item.gender }

/-- Item shape of `DcardReplyResponse` elements (dcard.ts lines 25-37). -/
structure ReplyItem where
  id : String
  content : String
  withNickname : Option Bool
  personaNickname : Option String
  personaUid : Option String
  school : String
  department : Option String
  gender : String
  likeCount : Int
  createdAt : String
  deriving DecidableEq

/-- View of a reply item as a `formatAuthor` argument. -/
def ReplyItem.toAuthorData (item : ReplyItem) : AuthorData :=
  { withNickname := item.withNickname, personaNickname := item.personaNickname,
    personaUid := item.personaUid, school := item.school,
    department := item.department, gender := item.gender }

/-- Outcome of one page fetch in `fetchComments`: the whole per-page
request pipeline (`fetchWithRetry` plus `response.json()`), collapsed to
the three cases the loop distinguishes: a thrown exception, a non-ok
response, or a parsed `DcardCommentResponse` body. -/
inductive CommentPageResult where
  | fetchError (err : String)
  | notOk (status : Nat)
  | ok (items : List CommentItem) (nextKey : Option String)

/-- Outcome of the single reply fetch in `fetchAndStoreReplies`,
collapsed the same way as `CommentPageResult`. -/
inductive ReplyFetchResult where
  | fetchError (err : String)
  | notOk (status : Nat)
  | ok (items : List ReplyItem)

/-- Network environment of one `fetchComments` run: `page i c` resolves
the page request of loop iteration `i` issued with cursor `c`, and
`replies cid` resolves the reply fetch for parent comment `cid`. -/
structure CommentsEnv where
  page : Nat → Option String → CommentPageResult
  replies : String → ReplyFetchResult

/-- Observable effects of a run, in program order. Store events record
the exact DTO at the moment its relay POST is attempted. -/
inductive Event where
  | commentPageRequest (page : Nat) (cursor : Option String)
  | storeArticleAttempt (article : NewArticleDto)
  | storeCommentAttempt (articleId : String) (comment : NewCommentDto)
  | replyFetchRequest (articleId : String) (commentId : String)
  | storeReplyAttempt (articleId : String) (commentId : String) (reply : NewReplyDto)
  deriving DecidableEq

/-- The `NewCommentDto` built from a comment item inside the page loop
(dcard.ts lines 185-191). -/
def mkComment (item : CommentItem) : NewCommentDto :=
  { id := item.id, content := item.content,
    author := formatAuthor item.toAuthorData,
    likes := item.likeCount, created_at := item.createdAt }

/-- The `NewReplyDto` built from a reply item (dcard.ts lines 261-267). -/
def mkReply (item : ReplyItem) : NewReplyDto :=
  { id := item.id, content := item.content,
    author := formatAuthor item.toAuthorData,
    likes := item.likeCount, created_at := item.createdAt }

/-- Embedding of `fetchAndStoreReplies` (dcard.ts lines 232-281): one GET
for the parent comment's replies; on a non-ok status or an exception it
returns the empty list (the error is only logged, the enclosing
`try`/`catch` never rethrows); on success every returned item is built
into a reply DTO and relayed. Returns the reply list and the event
trace. -/
def fetchAndStoreReplies (env : CommentsEnv) (articleId : String)
    (commentId : String) : List NewReplyDto × List Event :=
  match env.replies commentId with
  | .fetchError _ => ([], [Event.replyFetchRequest articleId commentId])
  | .notOk _ => ([], [Event.replyFetchRequest articleId commentId])
  | .ok items =>
    (items.map mkReply,
      Event.replyFetchRequest articleId commentId ::
        items.map (fun item => Event.storeReplyAttempt articleId commentId (mkReply item)))

/-- Body of the per-item loop of `fetchComments` (dcard.ts lines
184-205): build the comment DTO, relay it (the boolean result is
discarded by the source), and when the item's `subCommentCount` is
positive, fetch and relay its replies. -/
def processCommentItem (env : CommentsEnv) (articleId : String)
    (item : CommentItem) : NewCommentDto × List Event :=
  let comment := mkComment item
  if item.subCommentCount > 0 then
    (comment, Event.storeCommentAttempt articleId comment ::
      (fetchAndStoreReplies env articleId item.id).2)
  else
    (comment, [Event.storeCommentAttempt articleId comment])

/-- Comment DTOs pushed onto `allComments` while processing one ok
page. -/
def pageComments (env : CommentsEnv) (articleId : String)
    (items : List CommentItem) : List NewCommentDto :=
  items.map (fun item => (processCommentItem env articleId item).1)

/-- Event trace of processing every item of one ok page, in item
order. -/
def pageEvents (env : CommentsEnv) (articleId : String)
    (items : List CommentItem) : List Event :=
  items.flatMap (fun item => (processCommentItem env articleId item).2)

/-- Pagination loop of `fetchComments` (dcard.ts lines 157-220),
recursing on the remaining page budget `fuel` (initially
`MAX_COMMENT_PAGES`, i.e. the loop counter is `i = MAX_COMMENT_PAGES -
fuel`). Each iteration issues one page request; an exception or non-ok
status breaks the loop; an ok page processes every item; the loop then
breaks when `data.nextKey` is null or the empty string (JavaScript
`!nextKey`), otherwise continues with the new cursor. -/
def fetchCommentsGo (env : CommentsEnv) (articleId : String) :
    Nat → Nat → Option String → List NewCommentDto → List NewCommentDto × List Event
  | 0, _, _, acc => (acc, [])
  | fuel + 1, i, cursor, acc =>
    match env.page i cursor with
    | .fetchError _ => (acc, [Event.commentPageRequest i cursor])
    | .notOk _ => (acc, [Event.commentPageRequest i cursor])
    | .ok items nextKey =>
      match nextKey with
      | none => (acc ++ pageComments env articleId items,
          Event.commentPageRequest i cursor :: pageEvents env articleId items)
      | some k =>
        if k.isEmpty then (acc ++ pageComments env articleId items,
            Event.commentPageRequest i cursor :: pageEvents env articleId items)
        else
          let rest := fetchCommentsGo env articleId fuel (i + 1) (some k)
            (acc ++ pageComments env articleId items)
          (rest.1, Event.commentPageRequest i cursor ::
            pageEvents env articleId items ++ rest.2)

/-- Embedding of `fetchComments` (dcard.ts lines 151-224): run the
pagination loop from page 0 with an absent cursor and an empty
accumulator. -/
def fetchComments (env : CommentsEnv) (articleId : String) :
    List NewCommentDto × List Event :=
  fetchCommentsGo env articleId MAX_COMMENT_PAGES 0 none []

/-- Environment of one whole run of `main`. -/
structure MainEnv where
  dom : Dom
  articleBackend : FetchOutcome
  comments : CommentsEnv

/-- Embedding of `main` (dcard.ts lines 286-314): scrape the article (a
scrape failure is caught by the top-level handler and ends the run),
relay it, and only when the relay reports success run the comment
pagination. Returns the event trace of the run. -/
def main (env : MainEnv) : List Event :=
  match scrapeArticleData env.dom with
  | .error _ => []
  | .ok article =>
    if Storer.storeArticle env.articleBackend article then
      Event.storeArticleAttempt article :: (fetchComments env.comments article.id).2
    else
      [Event.storeArticleAttempt article]

/-- Recognizer of comment-page request events. -/
def isPageRequest : Event → Bool
  | .commentPageRequest _ _ => true
  | _ => false

/-- Number of comment-page requests issued in a trace. -/
def numPageRequests (evs : List Event) : Nat := evs.countP isPageRequest

/-- Check that a relay event carries a record with a non-empty id; events
that are not relay attempts pass vacuously. -/
def eventIdOk : Event → Bool
  | .storeArticleAttempt a => !a.id.isEmpty
  | .storeCommentAttempt _ c => !c.id.isEmpty
  | .storeReplyAttempt _ _ r => !r.id.isEmpty
  | _ => true

/-- The claim-C8 invariant, as a decidable check over a trace: every relay
attempt in the trace carries a record with a non-empty id. -/
def storeIdsOk (evs : List Event) : Bool := evs.all eventIdOk

/-- Check that an article relay event carries a record with a non-empty
id; all other events pass vacuously. -/
def articleEventIdOk : Event → Bool
  | .storeArticleAttempt a => !a.id.isEmpty
  | _ => true

/-- The article half of the claim-C8 invariant, as a decidable check over
a trace: every article relay attempt in the trace carries a record with a
non-empty id. -/
def articleIdsOk (evs : List Event) : Bool := evs.all articleEventIdOk

/-- Recognizer of comment/reply work: any comment-page request, comment
relay, reply fetch, or reply relay. -/
def isCommentWork : Event → Bool
  | .storeArticleAttempt _ => false
  | _ => true

/-- Concrete environment whose comments API answers every page with an
empty item list and a null cursor. -/
def envNullFirst : CommentsEnv :=
  { page := fun _ _ => .ok [] none, replies := fun _ => .notOk 500 }

/-- Concrete comment item with one declared reply. -/
def itemWithReply : CommentItem :=
  { id := "c1", content := "x", withNickname := none, school := "S",
    department := none, gender := "F", likeCount := 0, createdAt := "t",
    subCommentCount := 1 }

/-- Concrete comment item with no declared replies. -/
def itemNoReply : CommentItem :=
  { id := "c2", content := "y", withNickname := none, school := "S",
    department := none, gender := "F", likeCount := 0, createdAt := "t",
    subCommentCount := 0 }

/-- Concrete environment whose comments API answers page 0 with one
comment that declares a reply, then ends. -/
def envOneReplyItem : CommentsEnv :=
  { page := fun i _ => if i = 0 then .ok [itemWithReply] none else .ok [] none,
    replies := fun _ => .ok [] }

/-- Concrete environment whose comments API answers page 0 with two
comments and whose replies API always fails with HTTP 500. -/
def envReplyFailure : CommentsEnv :=
  { page := fun i _ => if i = 0 then .ok [itemWithReply, itemNoReply] none
      else .ok [] none,
    replies := fun _ => .notOk 500 }

/-- Concrete comment item carrying an empty id, as the comments API is
free to return. -/
def itemEmptyId : CommentItem :=
  { id := "", content := "x", withNickname := none, school := "S",
    department := none, gender := "F", likeCount := 0, createdAt := "t",
    subCommentCount := 0 }

/-- Concrete environment whose comments API returns one comment with an
empty id. -/
def envEmptyId : CommentsEnv :=
  { page := fun _ _ => .ok [itemEmptyId] none, replies := fun _ => .ok [] }

/-- Concrete reply item with a non-empty id. -/
def replyItemGood : ReplyItem :=
  { id := "r1", content := "z", withNickname := none, personaNickname := none,
    personaUid := none, school := "S", department := none, gender := "F",
    likeCount := 0, createdAt := "t" }

/-- Concrete user-identity payload of the spec's first author-formatting
example. -/
def authorAlice : AuthorData :=
  { withNickname := some true, personaNickname := some "Alice",
    personaUid := some "u1", school := "", department := none, gender := "F" }

/-- Concrete user-identity payload of the spec's department-absent
author-formatting example. -/
def authorNTU : AuthorData :=
  { withNickname := some false, personaNickname := none, personaUid := none,
    school := "NTU", department := none, gender := "M" }

/-- Concrete user-identity payload with every optional field present. -/
def authorBob : AuthorData :=
  { withNickname := some true, personaNickname := some "Bob",
    personaUid := some "u9", school := "X", department := some "CS",
    gender := "M" }

/-- Concrete complete DOM state: all four queried values are present and
non-empty and the canonical URL ends in the segment "7". -/
def domGood : Dom :=
  { title := some "T", date := some "D", content := some "C", url := some "a/b/7" }

/-- Concrete well-formed comments environment shared by the whole-run
environments below. -/
def commentsEnvGood : CommentsEnv :=
  { page := fun _ _ => .ok [itemWithReply] none,
    replies := fun _ => .ok [replyItemGood] }

/-- Concrete whole-run environment: a complete DOM, a backend that
accepts the article, and APIs returning well-formed ids. -/
def envMainGood : MainEnv :=
  { dom := domGood, articleBackend := .success 200, comments := commentsEnvGood }

/-- Concrete whole-run environment: a complete DOM but a backend that
rejects the article with HTTP 500. -/
def envMainArticleFail : MainEnv :=
  { dom := domGood, articleBackend := .success 500, comments := commentsEnvGood }

/-- Concrete whole-run environment: a complete DOM, an accepting backend,
and a comments API returning an ill-formed item with an empty id. -/
def envMainEmptyId : MainEnv :=
  { dom := domGood, articleBackend := .success 200, comments := envEmptyId }

/- ------------------------------------------------------------------ -/
/- Helper lemmas about the traces.                                     -/
/- ------------------------------------------------------------------ -/

theorem fetchWithRetry_attempts_eq_pauses_succ (net : Nat → FetchOutcome) :
    ∀ retries idx, (fetchWithRetry net idx retries).attempts =
      (fetchWithRetry net idx retries).pauses + 1 := by
  intro retries
  induction retries with
  | zero =>
    intro idx
    simp only [fetchWithRetry]
    cases net idx <;> simp
  | succ r ih =>
    intro idx
    simp only [fetchWithRetry]
    cases net idx with
    | success status =>
      by_cases h : status = 429 <;> simp [h, ih (idx + 1)]
    | failure err => simp [ih (idx + 1)]

theorem fetchWithRetry_pauses_le (net : Nat → FetchOutcome) :
    ∀ retries idx, (fetchWithRetry net idx retries).pauses ≤ retries := by
  intro retries
  induction retries with
  | zero =>
    intro idx
    simp only [fetchWithRetry]
    cases net idx <;> simp
  | succ r ih =>
    intro idx
    simp only [fetchWithRetry]
    cases net idx with
    | success status =>
      by_cases h : status = 429 <;> simp [h]
      exact ih (idx + 1)
    | failure err =>
      simp
      exact ih (idx + 1)

theorem mem_fetchAndStoreReplies (env : CommentsEnv) (articleId commentId : String)
    (e : Event) (he : e ∈ (fetchAndStoreReplies env articleId commentId).2) :
    e = Event.replyFetchRequest articleId commentId ∨
      ∃ items item, env.replies commentId = .ok items ∧ item ∈ items ∧
        e = Event.storeReplyAttempt articleId commentId (mkReply item) := by
  unfold fetchAndStoreReplies at he
  cases h : env.replies commentId with
  | fetchError err => rw [h] at he; simp at he; exact Or.inl he
  | notOk s => rw [h] at he; simp at he; exact Or.inl he
  | ok items =>
    rw [h] at he
    simp only [List.mem_cons, List.mem_map] at he
    rcases he with he | ⟨item, hitem, rfl⟩
    · exact Or.inl he
    · exact Or.inr ⟨items, item, rfl, hitem, rfl⟩

theorem mem_processCommentItem (env : CommentsEnv) (articleId : String)
    (item : CommentItem) (e : Event)
    (he : e ∈ (processCommentItem env articleId item).2) :
    e = Event.storeCommentAttempt articleId (mkComment item) ∨
      (0 < item.subCommentCount ∧
        e ∈ (fetchAndStoreReplies env articleId item.id).2) := by
  unfold processCommentItem at he
  by_cases h : item.subCommentCount > 0
  · simp only [h, if_pos] at he
    rcases List.mem_cons.mp he with he | he
    · exact Or.inl he
    · exact Or.inr ⟨h, he⟩
  · simp only [h, if_neg, if_false] at he
    simp at he
    exact Or.inl he

theorem processCommentItem_no_pageRequest (env : CommentsEnv) (articleId : String)
    (item : CommentItem) (e : Event)
    (he : e ∈ (processCommentItem env articleId item).2) :
    isPageRequest e = false := by
  rcases mem_processCommentItem env articleId item e he with rfl | ⟨_, hr⟩
  · rfl
  · rcases mem_fetchAndStoreReplies env articleId item.id e hr with rfl | ⟨_, _, _, _, rfl⟩
    · rfl
    · rfl

theorem processCommentItem_storeComment_mem (env : CommentsEnv) (articleId : String)
    (item : CommentItem) :
    Event.storeCommentAttempt articleId (mkComment item) ∈
      (processCommentItem env articleId item).2 := by
  unfold processCommentItem
  by_cases h : item.subCommentCount > 0 <;> simp [h]

theorem processCommentItem_replyFetch_mem (env : CommentsEnv) (articleId : String)
    (item : CommentItem) (hpos : 0 < item.subCommentCount) :
    Event.replyFetchRequest articleId item.id ∈
      (processCommentItem env articleId item).2 := by
  unfold processCommentItem
  simp only [hpos, if_pos]
  refine List.mem_cons_of_mem _ ?_
  unfold fetchAndStoreReplies
  cases env.replies item.id <;> simp

theorem processCommentItem_replyFetch_inv (env : CommentsEnv) (articleId : String)
    (item : CommentItem) (a cid : String)
    (he : Event.replyFetchRequest a cid ∈ (processCommentItem env articleId item).2) :
    a = articleId ∧ cid = item.id ∧ 0 < item.subCommentCount := by
  rcases mem_processCommentItem env articleId item _ he with h | ⟨hpos, hr⟩
  · cases h
  · rcases mem_fetchAndStoreReplies env articleId item.id _ hr with h | ⟨_, _, _, _, h⟩
    · cases h; exact ⟨rfl, rfl, hpos⟩
    · cases h

theorem pageEvents_no_pageRequest (env : CommentsEnv) (articleId : String)
    (items : List CommentItem) (e : Event)
    (he : e ∈ pageEvents env articleId items) : isPageRequest e = false := by
  rcases List.mem_flatMap.mp he with ⟨item, _, hmem⟩
  exact processCommentItem_no_pageRequest env articleId item e hmem

theorem fetchCommentsGo_fetchError (env : CommentsEnv) (articleId : String)
    (fuel i : Nat) (cursor : Option String) (acc : List NewCommentDto)
    (err : String) (h : env.page i cursor = .fetchError err) :
    fetchCommentsGo env articleId (fuel + 1) i cursor acc =
      (acc, [Event.commentPageRequest i cursor]) := by
  simp only [fetchCommentsGo, h]

theorem fetchCommentsGo_notOk (env : CommentsEnv) (articleId : String)
    (fuel i : Nat) (cursor : Option String) (acc : List NewCommentDto)
    (s : Nat) (h : env.page i cursor = .notOk s) :
    fetchCommentsGo env articleId (fuel + 1) i cursor acc =
      (acc, [Event.commentPageRequest i cursor]) := by
  simp only [fetchCommentsGo, h]

theorem fetchCommentsGo_ok_none (env : CommentsEnv) (articleId : String)
    (fuel i : Nat) (cursor : Option String) (acc : List NewCommentDto)
    (items : List CommentItem) (h : env.page i cursor = .ok items none) :
    fetchCommentsGo env articleId (fuel + 1) i cursor acc =
      (acc ++ pageComments env articleId items,
        Event.commentPageRequest i cursor :: pageEvents env articleId items) := by
  simp only [fetchCommentsGo, h]

theorem fetchCommentsGo_ok_emptyKey (env : CommentsEnv) (articleId : String)
    (fuel i : Nat) (cursor : Option String) (acc : List NewCommentDto)
    (items : List CommentItem) (k : String)
    (h : env.page i cursor = .ok items (some k)) (hk : k.isEmpty = true) :
    fetchCommentsGo env articleId (fuel + 1) i cursor acc =
      (acc ++ pageComments env articleId items,
        Event.commentPageRequest i cursor :: pageEvents env articleId items) := by
  simp only [fetchCommentsGo, h, hk, if_true]

theorem fetchCommentsGo_ok_cont (env : CommentsEnv) (articleId : String)
    (fuel i : Nat) (cursor : Option String) (acc : List NewCommentDto)
    (items : List CommentItem) (k : String)
    (h : env.page i cursor = .ok items (some k)) (hk : k.isEmpty = false) :
    fetchCommentsGo env articleId (fuel + 1) i cursor acc =
      ((fetchCommentsGo env articleId fuel (i + 1) (some k)
          (acc ++ pageComments env articleId items)).1,
        Event.commentPageRequest i cursor :: pageEvents env articleId items ++
          (fetchCommentsGo env articleId fuel (i + 1) (some k)
            (acc ++ pageComments env articleId items)).2) := by
  simp only [fetchCommentsGo, h, hk, Bool.false_eq_true, if_false]

theorem fetchCommentsGo_numPageRequests_le (env : CommentsEnv) (articleId : String) :
    ∀ fuel i cursor acc,
      numPageRequests (fetchCommentsGo env articleId fuel i cursor acc).2 ≤ fuel := by
  intro fuel
  induction fuel with
  | zero =>
    intro i cursor acc
    simp [fetchCommentsGo, numPageRequests]
  | succ fuel ih =>
    intro i cursor acc
    have hpz : ∀ items, numPageRequests (pageEvents env articleId items) = 0 := by
      intro items
      exact List.countP_eq_zero.mpr
        (fun e he => by simp [pageEvents_no_pageRequest env articleId items e he])
    cases hp : env.page i cursor with
    | fetchError err =>
      rw [fetchCommentsGo_fetchError env articleId fuel i cursor acc err hp]
      simp [numPageRequests, List.countP_cons, isPageRequest]
    | notOk s =>
      rw [fetchCommentsGo_notOk env articleId fuel i cursor acc s hp]
      simp [numPageRequests, List.countP_cons, isPageRequest]
    | ok items nextKey =>
      cases nextKey with
      | none =>
        rw [fetchCommentsGo_ok_none env articleId fuel i cursor acc items hp]
        simp only [numPageRequests, List.countP_cons] at hpz ⊢
        simp [hpz items, isPageRequest]
      | some k =>
        cases hk : k.isEmpty with
        | true =>
          rw [fetchCommentsGo_ok_emptyKey env articleId fuel i cursor acc items k hp hk]
          simp only [numPageRequests, List.countP_cons] at hpz ⊢
          simp [hpz items, isPageRequest]
        | false =>
          rw [fetchCommentsGo_ok_cont env articleId fuel i cursor acc items k hp hk]
          simp only [numPageRequests, List.countP_cons, List.countP_append] at hpz ⊢
          have := ih (i + 1) (some k) (acc ++ pageComments env articleId items)
          simp only [numPageRequests] at this
          simp [hpz items, isPageRequest]
          omega

theorem fetchCommentsGo_req_range (env : CommentsEnv) (articleId : String) :
    ∀ fuel i cursor acc j c,
      Event.commentPageRequest j c ∈ (fetchCommentsGo env articleId fuel i cursor acc).2 →
      i ≤ j ∧ j < i + fuel := by
  intro fuel
  induction fuel with
  | zero =>
    intro i cursor acc j c h
    simp [fetchCommentsGo] at h
  | succ fuel ih =>
    intro i cursor acc j c h
    have hpage : ∀ items, Event.commentPageRequest j c ∈ pageEvents env articleId items →
        False := by
      intro items hm
      have := pageEvents_no_pageRequest env articleId items _ hm
      simp [isPageRequest] at this
    cases hp : env.page i cursor with
    | fetchError err =>
      rw [fetchCommentsGo_fetchError env articleId fuel i cursor acc err hp] at h
      simp only [List.mem_singleton, Event.commentPageRequest.injEq] at h
      omega
    | notOk s =>
      rw [fetchCommentsGo_notOk env articleId fuel i cursor acc s hp] at h
      simp only [List.mem_singleton, Event.commentPageRequest.injEq] at h
      omega
    | ok items nextKey =>
      cases nextKey with
      | none =>
        rw [fetchCommentsGo_ok_none env articleId fuel i cursor acc items hp] at h
        rcases List.mem_cons.mp h with h | h
        · simp only [Event.commentPageRequest.injEq] at h
          omega
        · exact absurd h (fun hm => hpage items hm)
      | some k =>
        cases hk : k.isEmpty with
        | true =>
          rw [fetchCommentsGo_ok_emptyKey env articleId fuel i cursor acc items k hp hk] at h
          rcases List.mem_cons.mp h with h | h
          · simp only [Event.commentPageRequest.injEq] at h
            omega
          · exact absurd h (fun hm => hpage items hm)
        | false =>
          rw [fetchCommentsGo_ok_cont env articleId fuel i cursor acc items k hp hk] at h
          rcases List.mem_cons.mp h with h | h
          · simp only [Event.commentPageRequest.injEq] at h
            omega
          · rcases List.mem_append.mp h with h | h
            · exact absurd h (fun hm => hpage items hm)
            · have := ih (i + 1) (some k) (acc ++ pageComments env articleId items) j c h
              omega

theorem fetchCommentsGo_null_stops (env : CommentsEnv) (articleId : String) :
    ∀ fuel i cursor acc j c items,
      Event.commentPageRequest j c ∈ (fetchCommentsGo env articleId fuel i cursor acc).2 →
      env.page j c = .ok items none →
      ∀ j' c', j < j' →
        Event.commentPageRequest j' c' ∉ (fetchCommentsGo env articleId fuel i cursor acc).2 := by
  intro fuel
  induction fuel with
  | zero =>
    intro i cursor acc j c items h
    simp [fetchCommentsGo] at h
  | succ fuel ih =>
    intro i cursor acc j c items h hnull j' c' hlt h'
    have hpage : ∀ its j₀ c₀, Event.commentPageRequest j₀ c₀ ∈ pageEvents env articleId its →
        False := by
      intro its j₀ c₀ hm
      have := pageEvents_no_pageRequest env articleId its _ hm
      simp [isPageRequest] at this
    cases hp : env.page i cursor with
    | fetchError err =>
      rw [fetchCommentsGo_fetchError env articleId fuel i cursor acc err hp] at h h'
      simp only [List.mem_singleton, Event.commentPageRequest.injEq] at h h'
      omega
    | notOk s =>
      rw [fetchCommentsGo_notOk env articleId fuel i cursor acc s hp] at h h'
      simp only [List.mem_singleton, Event.commentPageRequest.injEq] at h h'
      omega
    | ok its nextKey =>
      cases nextKey with
      | none =>
        rw [fetchCommentsGo_ok_none env articleId fuel i cursor acc its hp] at h h'
        rcases List.mem_cons.mp h' with h' | h'
        · rcases List.mem_cons.mp h with h | h
          · simp only [Event.commentPageRequest.injEq] at h h'
            omega
          · exact hpage its j c h
        · exact hpage its j' c' h'
      | some k =>
        cases hk : k.isEmpty with
        | true =>
          rw [fetchCommentsGo_ok_emptyKey env articleId fuel i cursor acc its k hp hk] at h h'
          rcases List.mem_cons.mp h' with h' | h'
          · rcases List.mem_cons.mp h with h | h
            · simp only [Event.commentPageRequest.injEq] at h h'
              omega
            · exact hpage its j c h
          · exact hpage its j' c' h'
        | false =>
          rw [fetchCommentsGo_ok_cont env articleId fuel i cursor acc its k hp hk] at h h'
          rcases List.mem_cons.mp h with h | h
          · -- the hypothesis names the page requested here, whose nextKey is non-null
            obtain ⟨rfl, rfl⟩ : j = i ∧ c = cursor := by
              simpa [Event.commentPageRequest.injEq] using h
            rw [hp] at hnull
            simp at hnull
          · rcases List.mem_append.mp h with h | h
            · exact hpage its j c h
            · -- the null-nextKey request lies in the recursive tail
              have hrange := fetchCommentsGo_req_range env articleId fuel (i + 1) (some k)
                (acc ++ pageComments env articleId its) j c h
              rcases List.mem_cons.mp h' with h' | h'
              · simp only [Event.commentPageRequest.injEq] at h'
                omega
              · rcases List.mem_append.mp h' with h' | h'
                · exact hpage its j' c' h'
                · exact ih (i + 1) (some k) (acc ++ pageComments env articleId its)
                    j c items h hnull j' c' hlt h'

theorem fetchCommentsGo_item_events (env : CommentsEnv) (articleId : String) :
    ∀ fuel i cursor acc j c items key item e,
      Event.commentPageRequest j c ∈ (fetchCommentsGo env articleId fuel i cursor acc).2 →
      env.page j c = .ok items key → item ∈ items →
      e ∈ (processCommentItem env articleId item).2 →
      e ∈ (fetchCommentsGo env articleId fuel i cursor acc).2 := by
  intro fuel
  induction fuel with
  | zero =>
    intro i cursor acc j c items key item e h
    simp [fetchCommentsGo] at h
  | succ fuel ih =>
    intro i cursor acc j c items key item e h hpg hitem hev
    have hpage : ∀ its j₀ c₀, Event.commentPageRequest j₀ c₀ ∈ pageEvents env articleId its →
        False := by
      intro its j₀ c₀ hm
      have := pageEvents_no_pageRequest env articleId its _ hm
      simp [isPageRequest] at this
    have hpe : e ∈ pageEvents env articleId items :=
      List.mem_flatMap.mpr ⟨item, hitem, hev⟩
    cases hp : env.page i cursor with
    | fetchError err =>
      rw [fetchCommentsGo_fetchError env articleId fuel i cursor acc err hp] at h ⊢
      simp only [List.mem_singleton, Event.commentPageRequest.injEq] at h
      obtain ⟨rfl, rfl⟩ := h
      rw [hp] at hpg
      cases hpg
    | notOk s =>
      rw [fetchCommentsGo_notOk env articleId fuel i cursor acc s hp] at h ⊢
      simp only [List.mem_singleton, Event.commentPageRequest.injEq] at h
      obtain ⟨rfl, rfl⟩ := h
      rw [hp] at hpg
      cases hpg
    | ok its nextKey =>
      cases nextKey with
      | none =>
        rw [fetchCommentsGo_ok_none env articleId fuel i cursor acc its hp] at h ⊢
        rcases List.mem_cons.mp h with h | h
        · obtain ⟨rfl, rfl⟩ : j = i ∧ c = cursor := by
            simpa [Event.commentPageRequest.injEq] using h
          rw [hp] at hpg
          obtain ⟨rfl, -⟩ : its = items ∧ (none : Option String) = key := by
            simpa using hpg
          exact List.mem_cons_of_mem _ hpe
        · exact absurd h (fun hm => hpage its j c hm)
      | some k =>
        cases hk : k.isEmpty with
        | true =>
          rw [fetchCommentsGo_ok_emptyKey env articleId fuel i cursor acc its k hp hk] at h ⊢
          rcases List.mem_cons.mp h with h | h
          · obtain ⟨rfl, rfl⟩ : j = i ∧ c = cursor := by
              simpa [Event.commentPageRequest.injEq] using h
            rw [hp] at hpg
            obtain ⟨rfl, -⟩ : its = items ∧ (some k : Option String) = key := by
              simpa using hpg
            exact List.mem_cons_of_mem _ hpe
          · exact absurd h (fun hm => hpage its j c hm)
        | false =>
          rw [fetchCommentsGo_ok_cont env articleId fuel i cursor acc its k hp hk] at h ⊢
          rcases List.mem_cons.mp h with h | h
          · obtain ⟨rfl, rfl⟩ : j = i ∧ c = cursor := by
              simpa [Event.commentPageRequest.injEq] using h
            rw [hp] at hpg
            obtain ⟨rfl, -⟩ : its = items ∧ (some k : Option String) = key := by
              simpa using hpg
            exact List.mem_cons_of_mem _ (List.mem_append.mpr (Or.inl hpe))
          · rcases List.mem_append.mp h with h | h
            · exact absurd h (fun hm => hpage its j c hm)
            · exact List.mem_cons_of_mem _ (List.mem_append.mpr (Or.inr
                (ih (i + 1) (some k) (acc ++ pageComments env articleId its)
                  j c items key item e h hpg hitem hev)))

theorem fetchCommentsGo_event_origin (env : CommentsEnv) (articleId : String) :
    ∀ fuel i cursor acc e,
      e ∈ (fetchCommentsGo env articleId fuel i cursor acc).2 →
      isPageRequest e = true ∨
        ∃ j c items key item,
          Event.commentPageRequest j c ∈ (fetchCommentsGo env articleId fuel i cursor acc).2 ∧
          env.page j c = .ok items key ∧ item ∈ items ∧
          e ∈ (processCommentItem env articleId item).2 := by
  intro fuel
  induction fuel with
  | zero =>
    intro i cursor acc e h
    simp [fetchCommentsGo] at h
  | succ fuel ih =>
    intro i cursor acc e h
    cases hp : env.page i cursor with
    | fetchError err =>
      rw [fetchCommentsGo_fetchError env articleId fuel i cursor acc err hp] at h
      simp only [List.mem_singleton] at h
      subst h
      exact Or.inl rfl
    | notOk s =>
      rw [fetchCommentsGo_notOk env articleId fuel i cursor acc s hp] at h
      simp only [List.mem_singleton] at h
      subst h
      exact Or.inl rfl
    | ok its nextKey =>
      cases nextKey with
      | none =>
        rw [fetchCommentsGo_ok_none env articleId fuel i cursor acc its hp] at h
        rcases List.mem_cons.mp h with h | h
        · subst h; exact Or.inl rfl
        · rcases List.mem_flatMap.mp h with ⟨item, hitem, hev⟩
          refine Or.inr ⟨i, cursor, its, none, item, ?_, hp, hitem, hev⟩
          rw [fetchCommentsGo_ok_none env articleId fuel i cursor acc its hp]
          exact List.mem_cons_self _ _
      | some k =>
        cases hk : k.isEmpty with
        | true =>
          rw [fetchCommentsGo_ok_emptyKey env articleId fuel i cursor acc its k hp hk] at h
          rcases List.mem_cons.mp h with h | h
          · subst h; exact Or.inl rfl
          · rcases List.mem_flatMap.mp h with ⟨item, hitem, hev⟩
            refine Or.inr ⟨i, cursor, its, some k, item, ?_, hp, hitem, hev⟩
            rw [fetchCommentsGo_ok_emptyKey env articleId fuel i cursor acc its k hp hk]
            exact List.mem_cons_self _ _
        | false =>
          rw [fetchCommentsGo_ok_cont env articleId fuel i cursor acc its k hp hk] at h
          rcases List.mem_cons.mp h with h | h
          · subst h; exact Or.inl rfl
          · rcases List.mem_append.mp h with h | h
            · rcases List.mem_flatMap.mp h with ⟨item, hitem, hev⟩
              refine Or.inr ⟨i, cursor, its, some k, item, ?_, hp, hitem, hev⟩
              rw [fetchCommentsGo_ok_cont env articleId fuel i cursor acc its k hp hk]
              exact List.mem_cons_self _ _
            · rcases ih (i + 1) (some k) (acc ++ pageComments env articleId its) e h with
                hpr | ⟨j, c, items, key, item, hreq, hpg, hitem, hev⟩
              · exact Or.inl hpr
              · refine Or.inr ⟨j, c, items, key, item, ?_, hpg, hitem, hev⟩
                rw [fetchCommentsGo_ok_cont env articleId fuel i cursor acc its k hp hk]
                exact List.mem_cons_of_mem _ (List.mem_append.mpr (Or.inr hreq))

theorem fetchComments_no_storeArticle (env : CommentsEnv) (articleId : String) :
    ∀ e ∈ (fetchComments env articleId).2, articleEventIdOk e = true := by
  intro e he
  rcases fetchCommentsGo_event_origin env articleId MAX_COMMENT_PAGES 0 none []
      e he with hpr | ⟨j, c, items, key, item, hreq, hpg, hitem, hev⟩
  · cases e <;> first | rfl | simp [isPageRequest] at hpr
  · rcases mem_processCommentItem env articleId item e hev with rfl | ⟨hpos, hr⟩
    · rfl
    · rcases mem_fetchAndStoreReplies env articleId item.id e hr with
        rfl | ⟨ritems, ritem, hrep, hrmem, rfl⟩
      · rfl
      · rfl

theorem fetchWithRetry_const429 (net : Nat → FetchOutcome)
    (hnet : ∀ j, net j = .success 429) :
    ∀ retries idx, fetchWithRetry net idx retries =
      { result := .ok 429, attempts := retries + 1, pauses := retries } := by
  intro retries
  induction retries with
  | zero =>
    intro idx
    simp [fetchWithRetry, hnet idx]
  | succ r ih =>
    intro idx
    simp [fetchWithRetry, hnet idx, ih (idx + 1)]

theorem fetchWithRetry_constFailure (net : Nat → FetchOutcome) (e : String)
    (hnet : ∀ j, net j = .failure e) :
    ∀ retries idx, fetchWithRetry net idx retries =
      { result := .error e, attempts := retries + 1, pauses := retries } := by
  intro retries
  induction retries with
  | zero =>
    intro idx
    simp [fetchWithRetry, hnet idx]
  | succ r ih =>
    intro idx
    simp [fetchWithRetry, hnet idx, ih (idx + 1)]

theorem scrapeArticleData_ok_id_ne_empty (dom : Dom) (a : NewArticleDto)
    (h : scrapeArticleData dom = .ok a) : a.id ≠ "" := by
  unfold scrapeArticleData at h
  by_cases hc : (truthyStr dom.title && truthyStr dom.date && truthyStr dom.content
      && truthyStr dom.url && truthyStr (dom.url.map lastSeg)) = true
  · rw [if_pos hc] at h
    injection h with h2
    subst h2
    have hid : truthyStr (dom.url.map lastSeg) = true := by
      simp only [Bool.and_eq_true] at hc
      exact hc.2
    cases hu : dom.url.map lastSeg with
    | none => rw [hu] at hid; simp [truthyStr] at hid
    | some s =>
      rw [hu] at hid
      simp only [truthyStr, Bool.not_eq_true', ← String.isEmpty_iff] at hid ⊢
      simp only [hu, Option.getD_some]
      intro hs
      rw [hs] at hid
      exact absurd hid (by decide)
  · rw [if_neg hc] at h
    cases h

/- ------------------------------------------------------------------ -/
/- Claim theorems.                                                     -/
/- ------------------------------------------------------------------ -/

/-- C1: for every sequence of comments-API responses, the pagination loop
of `fetchComments` issues at most `MAX_COMMENT_PAGES` (= 3) page
requests, and as soon as the response to an issued page request carries a
null `nextKey` no page request with a larger index is ever issued. -/
theorem fetchComments_page_budget_and_null_stop (env : CommentsEnv) (articleId : String) :
    numPageRequests (fetchComments env articleId).2 ≤ MAX_COMMENT_PAGES ∧
    ∀ j c items, Event.commentPageRequest j c ∈ (fetchComments env articleId).2 →
      env.page j c = .ok items none →
      ∀ j' c', j < j' →
        Event.commentPageRequest j' c' ∉ (fetchComments env articleId).2 :=
  ⟨fetchCommentsGo_numPageRequests_le env articleId MAX_COMMENT_PAGES 0 none [],
   fun j c items h hn j' c' hlt =>
     fetchCommentsGo_null_stops env articleId MAX_COMMENT_PAGES 0 none []
       j c items h hn j' c' hlt⟩

/-- Witness for C1: in the environment whose first page already returns a
null cursor, the budget bound holds and no second page request is
issued. -/
theorem fetchComments_page_budget_and_null_stop_witness :
    numPageRequests (fetchComments envNullFirst "a").2 ≤ MAX_COMMENT_PAGES ∧
    Event.commentPageRequest 1 none ∉ (fetchComments envNullFirst "a").2 :=
  ⟨(fetchComments_page_budget_and_null_stop envNullFirst "a").1,
   (fetchComments_page_budget_and_null_stop envNullFirst "a").2 0 none []
     (by decide) rfl 1 none (by decide)⟩

/-- C2: `fetchWithRetry` pauses once before every retry, retries at most
the configured budget, returns a persistent 429 as an ordinary response
after the budget is exhausted, and surfaces a persistent transport
exception as a failed fetch after the budget is exhausted. -/
theorem fetchWithRetry_retry_policy (net : Nat → FetchOutcome)
    (idx retries : Nat) (e : String) :
    ((∀ j, net j = .success 429) →
      fetchWithRetry net idx retries =
        { result := .ok 429, attempts := retries + 1, pauses := retries }) ∧
    ((∀ j, net j = .failure e) →
      fetchWithRetry net idx retries =
        { result := .error e, attempts := retries + 1, pauses := retries }) ∧
    (fetchWithRetry net idx retries).attempts =
      (fetchWithRetry net idx retries).pauses + 1 ∧
    (fetchWithRetry net idx retries).pauses ≤ retries :=
  ⟨fun hnet => fetchWithRetry_const429 net hnet retries idx,
   fun hnet => fetchWithRetry_constFailure net e hnet retries idx,
   fetchWithRetry_attempts_eq_pauses_succ net retries idx,
   fetchWithRetry_pauses_le net retries idx⟩

/-- Witness for C2: with the default budget of 3, a persistent 429 comes
back as the response after 4 attempts and 3 pauses, and a persistent
exception surfaces as an error after 4 attempts and 3 pauses. -/
theorem fetchWithRetry_retry_policy_witness :
    fetchWithRetry (fun _ => .success 429) 0 3 =
      { result := .ok 429, attempts := 4, pauses := 3 } ∧
    fetchWithRetry (fun _ => .failure "boom") 0 3 =
      { result := .error "boom", attempts := 4, pauses := 3 } :=
  ⟨(fetchWithRetry_retry_policy (fun _ => .success 429) 0 3 "boom").1
     (fun _ => rfl),
   (fetchWithRetry_retry_policy (fun _ => .failure "boom") 0 3 "boom").2.1
     (fun _ => rfl)⟩

/-- C10: `fetchWithRetry` is total (it is a Lean function), and for an
initial budget of `retries` it performs at most `retries + 1` underlying
fetch attempts, because every recursive call strictly decreases the
remaining-retries counter. -/
theorem fetchWithRetry_attempt_bound (net : Nat → FetchOutcome) (idx retries : Nat) :
    (fetchWithRetry net idx retries).attempts ≤ retries + 1 := by
  have h1 := fetchWithRetry_attempts_eq_pauses_succ net retries idx
  have h2 := fetchWithRetry_pauses_le net retries idx
  omega

/-- C3: if the article relay does not report success, `main` performs the
article relay attempt and nothing else: no comment page fetch, no comment
relay, no reply fetch, and no reply relay. -/
theorem main_aborts_without_article_relay (env : MainEnv) (article : NewArticleDto)
    (hscrape : scrapeArticleData env.dom = .ok article)
    (hfail : Storer.storeArticle env.articleBackend article = false) :
    main env = [Event.storeArticleAttempt article] ∧
    ∀ e ∈ main env, isCommentWork e = false := by
  have hmain : main env = [Event.storeArticleAttempt article] := by
    unfold main
    rw [hscrape]
    simp [hfail]
  refine ⟨hmain, ?_⟩
  intro e he
  rw [hmain] at he
  simp only [List.mem_singleton] at he
  subst he
  rfl

/-- Witness for C3: with a complete DOM and a backend answering HTTP 500
to the article POST, the whole run's trace is the single article relay
attempt. -/
theorem main_aborts_without_article_relay_witness :
    main envMainArticleFail = [Event.storeArticleAttempt
      { id := "7", url := "a/b/7", title := "T", content := "C", created_at := "D" }] :=
  (main_aborts_without_article_relay envMainArticleFail
    { id := "7", url := "a/b/7", title := "T", content := "C", created_at := "D" }
    rfl rfl).1

/-- C4: every Relay Client operation resolves to a boolean (it is a total
Lean function into `Bool`, never an exception) and returns `true` exactly
when the backend POST produced a successful HTTP status; a non-success
status or a network exception yields `false`. -/
theorem storer_result_iff_success (backend : FetchOutcome) (article : NewArticleDto)
    (articleId commentId : String) (comment : NewCommentDto) (reply : NewReplyDto) :
    (Storer.storeArticle backend article = true ↔
      ∃ s, backend = .success s ∧ statusOk s = true) ∧
    (Storer.storeComment backend articleId comment = true ↔
      ∃ s, backend = .success s ∧ statusOk s = true) ∧
    (Storer.storeReply backend articleId commentId reply = true ↔
      ∃ s, backend = .success s ∧ statusOk s = true) := by
  cases backend <;>
    simp [Storer.storeArticle, Storer.storeComment, Storer.storeReply]

/-- C5: `formatAuthor` applies the three-branch precedence of the spec --
nickname line when `withNickname` is set and both persona fields are
present (non-empty, by JavaScript truthiness), the school/department
anomaly line when only `withNickname` is set, and the plain
school-department line otherwise -- and maps the two concrete payloads of
the spec to "Alice (@u1, F)" and "NTU (M)". -/
theorem formatAuthor_precedence (d : AuthorData) (n u : String) :
    (d.withNickname = some true → d.personaNickname = some n → n ≠ "" →
      d.personaUid = some u → u ≠ "" →
      formatAuthor d = n ++ " (@" ++ u ++ ", " ++ d.gender ++ ")") ∧
    (d.withNickname = some true →
      (truthyStr d.personaNickname && truthyStr d.personaUid) = false →
      formatAuthor d = "@" ++ d.school ++ " (@" ++ interp d.department ++ ", "
        ++ d.gender ++ ")") ∧
    (truthyBool d.withNickname = false →
      formatAuthor d = d.school ++
        (if truthyStr d.department then " " ++ interp d.department else "") ++
        " (" ++ d.gender ++ ")") ∧
    formatAuthor authorAlice = "Alice (@u1, F)" ∧
    formatAuthor authorNTU = "NTU (M)" := by
  refine ⟨?_, ?_, ?_, by decide, by decide⟩
  · intro hw hn hne hu hue
    have hn' : n.isEmpty = false := by
      rw [← Bool.not_eq_true, String.isEmpty_iff]; exact hne
    have hu' : u.isEmpty = false := by
      rw [← Bool.not_eq_true, String.isEmpty_iff]; exact hue
    simp [formatAuthor, truthyBool, truthyStr, interp, hw, hn, hu, hn', hu']
  · intro hw hfalse
    simp [formatAuthor, truthyBool, hw, hfalse]
  · intro hw
    simp [formatAuthor, hw]

/-- Witness for C5: the first branch applied at a concrete payload with
both persona fields present. -/
theorem formatAuthor_precedence_witness :
    formatAuthor authorBob = "Bob" ++ " (@" ++ "u9" ++ ", " ++ "M" ++ ")" :=
  (formatAuthor_precedence authorBob "Bob" "u9").1 rfl rfl (by decide) rfl (by decide)

/-- C6: inside the pagination loop, a comment item with a positive
declared reply count always triggers the reply sub-fetch for its id, and
every reply sub-fetch in the trace originates from some processed item
with a positive declared reply count -- so an item whose
`subCommentCount` is 0 never triggers a replies fetch for its id unless
another processed item with the same id declares replies. -/
theorem replyFetch_iff_declared_replies (env : CommentsEnv) (articleId : String) :
    (∀ j c items key item,
      Event.commentPageRequest j c ∈ (fetchComments env articleId).2 →
      env.page j c = .ok items key → item ∈ items → 0 < item.subCommentCount →
      Event.replyFetchRequest articleId item.id ∈ (fetchComments env articleId).2) ∧
    (∀ a cid, Event.replyFetchRequest a cid ∈ (fetchComments env articleId).2 →
      a = articleId ∧ ∃ j c items key item,
        Event.commentPageRequest j c ∈ (fetchComments env articleId).2 ∧
        env.page j c = .ok items key ∧ item ∈ items ∧ item.id = cid ∧
        0 < item.subCommentCount) := by
  constructor
  · intro j c items key item hreq hpg hitem hpos
    exact fetchCommentsGo_item_events env articleId MAX_COMMENT_PAGES 0 none []
      j c items key item _ hreq hpg hitem
      (processCommentItem_replyFetch_mem env articleId item hpos)
  · intro a cid h
    rcases fetchCommentsGo_event_origin env articleId MAX_COMMENT_PAGES 0 none [] _ h with
      hpr | ⟨j, c, items, key, item, hreq, hpg, hitem, hev⟩
    · simp [isPageRequest] at hpr
    · obtain ⟨rfl, rfl, hpos⟩ :=
        processCommentItem_replyFetch_inv env articleId item a cid hev
      exact ⟨rfl, j, c, items, key, item, hreq, hpg, hitem, rfl, hpos⟩

/-- Witness for C6: a processed comment declaring one reply triggers its
reply fetch. -/
theorem replyFetch_iff_declared_replies_witness :
    Event.replyFetchRequest "a" "c1" ∈ (fetchComments envOneReplyItem "a").2 :=
  (replyFetch_iff_declared_replies envOneReplyItem "a").1 0 none
    [itemWithReply] none itemWithReply (by decide) rfl (by decide) (by decide)

/-- C7: when the five required page values (title, timestamp, body,
canonical URL, id derived as the URL's last path segment) are present and
non-empty, `scrapeArticleData` succeeds with a record whose id is the
last path segment of the canonical URL; when any of the five is missing
or empty it fails with the missing-required-data error and produces no
record. -/
theorem scrapeArticleData_required_fields (dom : Dom) (t d c u : String) :
    (dom.title = some t → t ≠ "" → dom.date = some d → d ≠ "" →
      dom.content = some c → c ≠ "" → dom.url = some u → u ≠ "" →
      lastSeg u ≠ "" →
      scrapeArticleData dom = .ok
        { id := lastSeg u, url := u, title := t, content := c, created_at := d }) ∧
    ((truthyStr dom.title = false ∨ truthyStr dom.date = false ∨
      truthyStr dom.content = false ∨ truthyStr dom.url = false ∨
      truthyStr (dom.url.map lastSeg) = false) →
      scrapeArticleData dom =
        .error "Failed to scrape article data: missing required data") := by
  constructor
  · intro ht htne hd hdne hc hcne hu hune hidne
    have hne : ∀ s : String, s ≠ "" → s.isEmpty = false := by
      intro s hs
      rw [← Bool.not_eq_true, String.isEmpty_iff]
      exact hs
    unfold scrapeArticleData
    rw [ht, hd, hc, hu]
    simp [truthyStr, hne t htne, hne d hdne, hne c hcne, hne u hune,
      hne (lastSeg u) hidne]
  · intro hmiss
    unfold scrapeArticleData
    rcases hmiss with h | h | h | h | h <;> simp [h]

/-- Witness for C7: a complete DOM state extracts the article with id
"7", the last segment of the canonical URL "a/b/7". -/
theorem scrapeArticleData_required_fields_witness :
    scrapeArticleData domGood = .ok
      { id := lastSeg "a/b/7", url := "a/b/7", title := "T", content := "C",
        created_at := "D" } :=
  (scrapeArticleData_required_fields domGood "T" "D" "C" "a/b/7").1
    rfl (by decide) rfl (by decide) rfl (by decide) rfl (by decide) (by decide)

/-- C9: a reply sub-fetch that ends in a transport exception or a non-ok
HTTP status makes `fetchAndStoreReplies` return the empty reply list with
no reply relay, without propagating anything (the function is total); and
the pagination loop still relays every processed comment, whatever the
reply fetches did. -/
theorem fetchAndStoreReplies_failure_policy (env : CommentsEnv)
    (articleId commentId : String) :
    (∀ err, env.replies commentId = .fetchError err →
      fetchAndStoreReplies env articleId commentId =
        ([], [Event.replyFetchRequest articleId commentId])) ∧
    (∀ s, env.replies commentId = .notOk s →
      fetchAndStoreReplies env articleId commentId =
        ([], [Event.replyFetchRequest articleId commentId])) ∧
    (∀ j c items key item,
      Event.commentPageRequest j c ∈ (fetchComments env articleId).2 →
      env.page j c = .ok items key → item ∈ items →
      Event.storeCommentAttempt articleId (mkComment item) ∈
        (fetchComments env articleId).2) := by
  refine ⟨?_, ?_, ?_⟩
  · intro err h
    unfold fetchAndStoreReplies
    rw [h]
  · intro s h
    unfold fetchAndStoreReplies
    rw [h]
  · intro j c items key item hreq hpg hitem
    exact fetchCommentsGo_item_events env articleId MAX_COMMENT_PAGES 0 none []
      j c items key item _ hreq hpg hitem
      (processCommentItem_storeComment_mem env articleId item)

/-- Witness for C9: with a replies API that always answers HTTP 500, the
sub-fetch for the first comment yields no replies and no reply relay,
while the second comment of the same page is still relayed. -/
theorem fetchAndStoreReplies_failure_policy_witness :
    fetchAndStoreReplies envReplyFailure "a" "c1" =
      ([], [Event.replyFetchRequest "a" "c1"]) ∧
    Event.storeCommentAttempt "a" (mkComment itemNoReply) ∈
      (fetchComments envReplyFailure "a").2 :=
  ⟨(fetchAndStoreReplies_failure_policy envReplyFailure "a" "c1").2.1 500 rfl,
   (fetchAndStoreReplies_failure_policy envReplyFailure "a" "c1").2.2 0 none
     [itemWithReply, itemNoReply] none itemNoReply (by decide) rfl (by decide)⟩

/-- Counterexample for C8 as stated: the comments API may return an item
whose id is the empty string; the loop then attempts the comment relay
with an empty-id record, so not every relayed record has a non-empty id. -/
theorem storeIds_nonempty_counterexample :
    storeIdsOk (fetchComments envEmptyId "a").2 = false ∧
    Event.storeCommentAttempt "a" (mkComment itemEmptyId) ∈
      (fetchComments envEmptyId "a").2 ∧
    (mkComment itemEmptyId).id = "" := by
  refine ⟨by decide, by decide, rfl⟩

/-- C8 amended: in every run, the article record always has a non-empty
id when its relay is attempted (the extractor rejects empty ids, and the
pagination loop never relays an article); comment and reply records have
a non-empty id when their relay is attempted provided every item returned
by the comments and replies APIs carries a non-empty id, since those ids
are copied into the records verbatim and unvalidated. -/
theorem storeIds_nonempty_amended (env : MainEnv) :
    articleIdsOk (main env) = true ∧
    ((∀ i c items key item,
        env.comments.page i c = .ok items key → item ∈ items → item.id ≠ "") →
      (∀ cid ritems item,
        env.comments.replies cid = .ok ritems → item ∈ ritems → item.id ≠ "") →
      storeIdsOk (main env) = true) := by
  have hne : ∀ s : String, s ≠ "" → s.isEmpty = false := by
    intro s hs
    rw [← Bool.not_eq_true, String.isEmpty_iff]
    exact hs
  constructor
  · rw [articleIdsOk, List.all_eq_true]
    intro e he
    cases hscrape : scrapeArticleData env.dom with
    | error msg =>
      have hmain : main env = [] := by
        unfold main
        rw [hscrape]
      rw [hmain] at he
      simp at he
    | ok article =>
      have hart : articleEventIdOk (Event.storeArticleAttempt article) = true := by
        have := scrapeArticleData_ok_id_ne_empty env.dom article hscrape
        simp [articleEventIdOk, hne article.id this]
      by_cases hstore : Storer.storeArticle env.articleBackend article = true
      · have hmain : main env = Event.storeArticleAttempt article ::
            (fetchComments env.comments article.id).2 := by
          unfold main
          rw [hscrape]
          simp [hstore]
        rw [hmain] at he
        rcases List.mem_cons.mp he with rfl | he
        · exact hart
        · exact fetchComments_no_storeArticle env.comments article.id e he
      · have hmain : main env = [Event.storeArticleAttempt article] := by
          unfold main
          rw [hscrape]
          simp [hstore]
        rw [hmain] at he
        simp only [List.mem_singleton] at he
        subst he
        exact hart
  intro hitems hreps
  rw [storeIdsOk, List.all_eq_true]
  intro e he
  have hcomments : ∀ aid, e ∈ (fetchComments env.comments aid).2 → eventIdOk e = true := by
    intro aid hmem
    rcases fetchCommentsGo_event_origin env.comments aid MAX_COMMENT_PAGES 0 none []
        e hmem with hpr | ⟨j, c, items, key, item, hreq, hpg, hitem, hev⟩
    · cases e <;> first | rfl | simp [isPageRequest] at hpr
    · rcases mem_processCommentItem env.comments aid item e hev with rfl | ⟨hpos, hr⟩
      · have := hitems j c items key item hpg hitem
        simp [eventIdOk, mkComment, hne item.id this]
      · rcases mem_fetchAndStoreReplies env.comments aid item.id e hr with
          rfl | ⟨ritems, ritem, hrep, hrmem, rfl⟩
        · rfl
        · have := hreps item.id ritems ritem hrep hrmem
          simp [eventIdOk, mkReply, hne ritem.id this]
  cases hscrape : scrapeArticleData env.dom with
  | error msg =>
    have hmain : main env = [] := by
      unfold main
      rw [hscrape]
    rw [hmain] at he
    simp at he
  | ok article =>
    have hart : eventIdOk (Event.storeArticleAttempt article) = true := by
      have := scrapeArticleData_ok_id_ne_empty env.dom article hscrape
      simp [eventIdOk, hne article.id this]
    by_cases hstore : Storer.storeArticle env.articleBackend article = true
    · have hmain : main env = Event.storeArticleAttempt article ::
          (fetchComments env.comments article.id).2 := by
        unfold main
        rw [hscrape]
        simp [hstore]
      rw [hmain] at he
      rcases List.mem_cons.mp he with rfl | he
      · exact hart
      · exact hcomments article.id he
    · have hmain : main env = [Event.storeArticleAttempt article] := by
        unfold main
        rw [hscrape]
        simp [hstore]
      rw [hmain] at he
      simp only [List.mem_singleton] at he
      subst he
      exact hart

/-- Witness for C8 amended: in the well-formed whole-run environment
every relayed record carries a non-empty id, and even in the run whose
comments API returns an empty-id item, every article relay attempt still
carries a non-empty id. -/
theorem storeIds_nonempty_amended_witness :
    storeIdsOk (main envMainGood) = true ∧
    articleIdsOk (main envMainEmptyId) = true :=
  ⟨(storeIds_nonempty_amended envMainGood).2
    (by
      intro i c items key item hpg hitem
      cases hpg
      simp only [List.mem_singleton] at hitem
      subst hitem
      decide)
    (by
      intro cid ritems item hrep hitem
      cases hrep
      simp only [List.mem_singleton] at hitem
      subst hitem
      decide),
   (storeIds_nonempty_amended envMainEmptyId).1⟩

end Dcard
